import Mathlib

/-!
Verification of the task-declaration / dependency-binding layer of the
prefect repository (src/prefect/core/task.py) against its specification.

The Python source is shallowly embedded: pure computations become Lean
functions, the mutable ambient context and flow become explicit values that
are threaded through the operations, and fallible Python code (raised
`TypeError` from signature binding, `AttributeError` from the identity
setters, the `FAIL` signal) becomes `Except`.

The `Flow` collaborator (prefect.core.flow) and the `GetItem` operator
(prefect.tasks.core.operators) are not part of the source excerpt; where
they are needed they are modelled from the spec and marked as such.
-/

namespace Prefect

/-- Python runtime values, as far as this layer inspects them (it never looks
inside a value; we only need a small universe with decidable equality so that
concrete scenarios can be evaluated). `vnone` stands for Python `None`. -/
inductive Value where
  | vnone : Value
  | int : Int → Value
  | str : String → Value
  | bool : Bool → Value
deriving DecidableEq, Repr

/-- One declared parameter of a work function (`inspect.Parameter` of kind
POSITIONAL_OR_KEYWORD): a name and an optional default value
(`none` = `inspect.Parameter.empty`, i.e. the parameter is required). -/
structure Param where
  name : String
  default : Option Value
deriving DecidableEq, Repr

/-- The declared parameter list of a work function
(`inspect.signature(self.run)`): the ordered positional-or-keyword
parameters, plus the name of the variadic-keyword (`**`) slot when the
function declares one. -/
structure Signature where
  params : List Param
  varKw : Option String
deriving DecidableEq, Repr

/-- The `TypeError`s that `inspect.Signature.bind` can raise. -/
inductive BindErr where
  | tooManyPositional : BindErr
  | unexpectedKeyword : String → BindErr
  | missingRequired : String → BindErr
  | multipleValues : String → BindErr
deriving DecidableEq, Repr

/-- An entry of `BoundArguments.arguments`: either a value bound to a named
parameter, or the mapping captured by the variadic-keyword slot. -/
inductive Bindings (α : Type) where
  | plain : α → Bindings α
  | kwCapture : List (String × α) → Bindings α
deriving DecidableEq, Repr

/-- First value stored under key `k` (Python `dict` lookup; the embedding
keeps keyword mappings as association lists with the dict's unique-key
discipline assumed where it matters). -/
def lookupKw {α : Type} (kwargs : List (String × α)) (k : String) : Option α :=
  match kwargs with
  | [] => none
  | (k', v) :: rest => if k' = k then some v else lookupKw rest k

/-- Remove key `k` (Python `dict.pop`; with unique keys, removing every
occurrence coincides with removing the one stored entry). -/
def eraseKw {α : Type} (kwargs : List (String × α)) (k : String) : List (String × α) :=
  kwargs.filter (fun kv => kv.1 ≠ k)

/-- Positional phase of `inspect.Signature._bind`: consume `args` against the
leading parameters. A parameter that takes a positional value and also
appears among the keyword names raises "multiple values"; positional values
beyond the parameter list raise "too many positional arguments". Returns the
positionally bound entries and the parameters not consumed positionally. -/
def bindPos {α : Type} : List Param → List α → List String →
    Except BindErr (List (String × α) × List Param)
  | ps, [], _ => .ok ([], ps)
  | [], _ :: _, _ => .error .tooManyPositional
  | p :: ps, a :: as, kwNames =>
    if p.name ∈ kwNames then .error (.multipleValues p.name)
    else
      match bindPos ps as kwNames with
      | .ok (bound, rem) => .ok ((p.name, a) :: bound, rem)
      | .error e => .error e

/-- Keyword phase of `inspect.Signature._bind`: each remaining parameter
takes its value from `kwargs` (popping it) if present; a parameter with a
default that is absent from `kwargs` is simply skipped (bind does not apply
defaults); a required parameter absent from `kwargs` raises "missing a
required argument". Returns the keyword-bound entries and the unconsumed
keyword arguments. -/
def bindKw {α : Type} : List Param → List (String × α) →
    Except BindErr (List (String × α) × List (String × α))
  | [], kwargs => .ok ([], kwargs)
  | p :: ps, kwargs =>
    match lookupKw kwargs p.name with
    | some v =>
      match bindKw ps (eraseKw kwargs p.name) with
      | .ok (bound, rem) => .ok ((p.name, v) :: bound, rem)
      | .error e => .error e
    | none =>
      if p.default.isSome then bindKw ps kwargs
      else .error (.missingRequired p.name)

/-- `inspect.Signature.bind(*args, **kwargs).arguments`: positional phase,
then keyword phase; leftover keyword arguments go under the `**` slot's name
as one captured mapping (only when non-empty, as CPython omits empty
collections from `arguments`), or raise "unexpected keyword argument" when
the function has no `**` slot. -/
def Signature.bind {α : Type} (sig : Signature) (args : List α)
    (kwargs : List (String × α)) : Except BindErr (List (String × Bindings α)) :=
  match bindPos sig.params args (kwargs.map Prod.fst) with
  | .error e => .error e
  | .ok (posBound, remParams) =>
    match bindKw remParams kwargs with
    | .error e => .error e
    | .ok (kwBound, leftover) =>
      let arguments := (posBound ++ kwBound).map (fun kv => (kv.1, Bindings.plain kv.2))
      match leftover with
      | [] => .ok arguments
      | (k, _) :: _ =>
        match sig.varKw with
        | some kwName => .ok (arguments ++ [(kwName, Bindings.kwCapture leftover)])
        | none => .error (.unexpectedKeyword k)

/-- Work-function signature `(a, b=1)` used by the spec's binding examples. -/
def sigAB : Signature :=
  { params := [{ name := "a", default := none }, { name := "b", default := some (Value.int 1) }],
    varKw := none }

/-- Work-function signature `(a, **rest)` used by the spec's overflow
example. -/
def sigAKw : Signature :=
  { params := [{ name := "a", default := none }], varKw := some "rest" }

/-- A declared task (`Task.__init__`, source lines 35-74): identity and
execution metadata plus the declared parameter list of its work function.
`trigger` and `environment` are function-valued / opaque references that this
layer only carries through unevaluated; they are omitted so that tasks have
decidable equality (none of the claims mentions them). Python compares task
objects by identity; the embedding compares them as values, which coincides
for the scenarios of the claims (a task re-registered is the same value, and
every derived task differs in at least its name). -/
structure Task where
  name : String
  slug : Option String
  description : Option String
  group : String
  tags : List String
  max_retries : Int
  retry_delay_seconds : Nat
  timeout_seconds : Option Nat
  propagate_skip : Bool
  checkpoint : Bool
  sig : Signature
deriving DecidableEq, Repr

/-- A value passed at a call site: either a literal or an upstream task's
result standing in dependency position (the layer passes both through
uniformly; classifying them is the flow's responsibility). -/
inductive DepVal where
  | lit : Value → DepVal
  | res : Task → DepVal
deriving DecidableEq, Repr

/-- A Python dict key as `Task.__call__` uses it: the `callargs` dict is keyed
by parameter-name strings, but `callargs.pop(var_kw_arg, {})` (source line
119) passes the `inspect.Parameter` object itself (or `None` when the
signature has no `**` slot) as the key. No string key ever compares equal to
a `Parameter` object or to `None`, which the separate constructors make
explicit. -/
inductive PyKey where
  | pystr : String → PyKey
  | paramObj : String → PyKey
  | pyNone : PyKey
deriving DecidableEq, Repr

/-- A dependency edge of a flow graph: data flows from `upstream` to
`downstream`, under the downstream task's keyword `key` when the edge carries
a keyword result. -/
structure Edge where
  upstream : Task
  downstream : Task
  key : Option String
deriving DecidableEq, Repr

/-- Modelled from the spec: the `Flow` collaborator (prefect.core.flow is not
under src/) owns the node set and the edge set of the dependency graph. -/
structure Flow where
  tasks : List Task
  edges : List Edge
deriving DecidableEq, Repr

/-- A freshly constructed empty flow (`prefect.Flow()` as this layer uses
it: no nodes, no edges). -/
def Flow.empty : Flow := { tasks := [], edges := [] }

/-- Modelled from the spec: `Flow.add_task` is idempotent node insertion —
a no-op when the task is already present. -/
def Flow.add_task (f : Flow) (t : Task) : Flow :=
  if t ∈ f.tasks then f else { f with tasks := f.tasks ++ [t] }

/-- Record one dependency edge. -/
def Flow.addEdge (f : Flow) (e : Edge) : Flow :=
  { f with edges := f.edges ++ [e] }

/-- One bound occurrence of a task inside one flow (`TaskResult`, source
lines 222-238): a (task, flow) reference pair. -/
structure TaskResult where
  task : Task
  flow : Flow
deriving DecidableEq, Repr

/-- `TaskResult.__init__` (source lines 227-232): default the flow to a fresh
one when none is given, register the task in the flow (idempotently) before
returning, and keep the (task, flow) pair. -/
def TaskResult.init (task : Task) (flow? : Option Flow) : TaskResult :=
  let flow := flow?.getD Flow.empty
  let flow := flow.add_task task
  { task := task, flow := flow }

/-- Modelled from the spec: `Flow.set_dependencies` registers the task
(idempotent add), creates an edge from each explicit upstream task, an edge
to each explicit downstream task, and an edge for each keyword result that
references an upstream task (a literal keyword value creates no edge at this
layer; a keyword-captured mapping reaching the flow un-flattened likewise
creates no edge, the flow receiving it only as one opaque value). The
`validate` flag selects graph-level cycle / duplicate-slug checking that the
spec assigns wholly to the excluded flow component; no claim exercises it,
so it is carried but not interpreted. Returns a TaskResult bound to the
task and the updated flow. -/
def Flow.set_dependencies (f : Flow) (t : Task) (upstream_tasks : List Task)
    (downstream_tasks : List Task) (keyword_results : List (PyKey × Bindings DepVal))
    (validate : Bool) : TaskResult :=
  let f1 := f.add_task t
  let f2 := upstream_tasks.foldl
    (fun acc u => (acc.add_task u).addEdge { upstream := u, downstream := t, key := none }) f1
  let f3 := downstream_tasks.foldl
    (fun acc d => (acc.add_task d).addEdge { upstream := t, downstream := d, key := none }) f2
  let f4 := keyword_results.foldl
    (fun acc kv =>
      match kv with
      | (PyKey.pystr name, Bindings.plain (DepVal.res u)) =>
        (acc.add_task u).addEdge { upstream := u, downstream := t, key := some name }
      | _ => acc) f3
  TaskResult.init t (some f4)

/-- The ambient context (prefect.context): the keys this layer consumes, with
absence modelled explicitly where the source distinguishes it. -/
structure Context where
  flow : Option Flow
  group : Option String
  tags : List String
  parameters : List (String × Value)
deriving DecidableEq, Repr

/-- Python `a or b` for an optional string `a`: `None` and the empty string
are falsy, any other string wins. -/
def pyOrStr (a : Option String) (b : String) : String :=
  match a with
  | some s => if s = "" then b else s
  | none => b

/-- The constructor arguments of `Task.__init__` with their declared
defaults (source lines 35-49); `retry_delay=timedelta(minutes=1)` is carried
in seconds, and the declared parameter list of the variant's work function
(`inspect.signature(self.run)`) is part of the configuration since the
embedding has no method lookup. -/
structure TaskConfig where
  name : Option String := none
  slug : Option String := none
  description : Option String := none
  group : Option String := none
  tags : List String := []
  max_retries : Int := 0
  retry_delay_seconds : Nat := 60
  timeout_seconds : Option Nat := none
  propagate_skip : Bool := false
  checkpoint : Bool := false
  sig : Signature := { params := [], varKw := none }
deriving Repr

/-- The field assignments of `Task.__init__` (source lines 51-70): the name
falls back to the variant's type name, the group falls back to the ambient
`_group` (empty-string default), and the tag set is built from the explicit
tags (the `isinstance(tags, str)` wrapping is already a list here) and then
extended with the ambient `_tags` — both reads snapshot the context at
construction time, copying the elements into a fresh set. -/
def Task.init (cfg : TaskConfig) (typeName : String) (ctx : Context) : Task :=
  { name := pyOrStr cfg.name typeName
    slug := cfg.slug
    description := cfg.description
    group := pyOrStr cfg.group (ctx.group.getD "")
    tags := (cfg.tags ++ ctx.tags).dedup
    max_retries := cfg.max_retries
    retry_delay_seconds := cfg.retry_delay_seconds
    timeout_seconds := cfg.timeout_seconds
    propagate_skip := cfg.propagate_skip
    checkpoint := cfg.checkpoint
    sig := cfg.sig }

/-- The registration side effect of `Task.__init__` (source lines 72-74): if
an ambient flow is present, add the freshly constructed task to it. -/
def Task.initRegister (t : Task) (ctx : Context) : Context :=
  match ctx.flow with
  | some f => { ctx with flow := some (f.add_task t) }
  | none => ctx

/-- Flow resolution of `Task.set_dependencies` (source lines 135-136): the
explicit argument when given, else the ambient `_flow`, else a freshly
constructed flow. -/
def resolveFlowArg (flow? : Option Flow) (ctx : Context) : Flow :=
  match flow? with
  | some f => f
  | none => ctx.flow.getD Flow.empty

/-- Flow resolution of `Task.__call__` (source line 121): the ambient
`_flow` when present, else a freshly constructed flow. -/
def callAmbientFlow (ctx : Context) : Flow :=
  ctx.flow.getD Flow.empty

/-- `Task.set_dependencies` (source lines 126-144): resolve the flow and
delegate edge creation to it. -/
def Task.set_dependencies (t : Task) (flow? : Option Flow) (ctx : Context)
    (upstream_tasks : List Task) (downstream_tasks : List Task)
    (keyword_results : List (PyKey × Bindings DepVal)) (validate : Bool) : TaskResult :=
  Flow.set_dependencies (resolveFlowArg flow? ctx) t upstream_tasks downstream_tasks
    keyword_results validate

/-- Python `dict.pop(k, dflt)`: the stored value and the dict without the
entry when some key compares equal to `k`, else the default and the dict
unchanged. -/
def popD {β : Type} (d : List (PyKey × β)) (k : PyKey) (dflt : β) : β × List (PyKey × β) :=
  match d with
  | [] => (dflt, [])
  | (k', v) :: rest =>
    if k' = k then (v, rest)
    else
      let (r, d') := popD rest k dflt
      (r, (k', v) :: d')

/-- Python `dict.__setitem__`: replace in place, else append. -/
def setKey (d : List (PyKey × Bindings DepVal)) (k : PyKey) (v : Bindings DepVal) :
    List (PyKey × Bindings DepVal) :=
  match d with
  | [] => [(k, v)]
  | (k', v') :: rest => if k' = k then (k, v) :: rest else (k', v') :: setKey rest k v

/-- Python `dict.update` with a string-keyed mapping of plain values. -/
def pyDictUpdate (d : List (PyKey × Bindings DepVal)) (entries : List (String × DepVal)) :
    List (PyKey × Bindings DepVal) :=
  entries.foldl (fun acc kv => setKey acc (PyKey.pystr kv.1) (Bindings.plain kv.2)) d

/-- The value `callargs.pop(...)` hands to `callargs.update(...)`: the
captured mapping when the popped value is one, else nothing (the `{}`
default). -/
def asKwDict (b : Bindings DepVal) : List (String × DepVal) :=
  match b with
  | .kwCapture l => l
  | .plain _ => []

/-- The variadic-keyword expansion step of `Task.__call__` (source lines
116-119): `callargs.update(callargs.pop(var_kw_arg, {}))`, where
`var_kw_arg` is the `inspect.Parameter` object found for the `**` slot — or
`None` when there is none — while `callargs` is keyed by name strings. -/
def expandVarKwargs (callargs : List (PyKey × Bindings DepVal)) (varKw : Option String) :
    List (PyKey × Bindings DepVal) :=
  let popKey : PyKey :=
    match varKw with
    | some n => PyKey.paramObj n
    | none => PyKey.pyNone
  let (popped, rest) := popD callargs popKey (Bindings.kwCapture [])
  pyDictUpdate rest (asKwDict popped)

/-- The argument-binding portion of `Task.__call__` (source lines 110-119):
bind the call against the work function's signature, then run the
variadic-keyword expansion step on the resulting `callargs` dict. -/
def Task.callBind (t : Task) (args : List DepVal) (kwargs : List (String × DepVal)) :
    Except BindErr (List (PyKey × Bindings DepVal)) :=
  match Signature.bind t.sig args kwargs with
  | .error e => .error e
  | .ok callargs =>
    .ok (expandVarKwargs (callargs.map (fun kv => (PyKey.pystr kv.1, kv.2))) t.sig.varKw)

/-- `Task.__call__` (source lines 107-124): bind and expand the call
arguments, resolve the ambient flow, and delegate to `set_dependencies` with
that flow made explicit, no downstream tasks, and validation enabled. -/
def Task.call (t : Task) (ctx : Context) (args : List DepVal)
    (upstream_tasks : List Task) (kwargs : List (String × DepVal)) :
    Except BindErr TaskResult :=
  match t.callBind args kwargs with
  | .error e => .error e
  | .ok callargs =>
    .ok (t.set_dependencies (some (callAmbientFlow ctx)) ctx upstream_tasks [] callargs true)

/-- The distinguished runtime signal a task run can raise; this layer only
produces `FAIL` (from `Parameter.run`), carrying its message. -/
inductive Signal where
  | fail : String → Signal
deriving DecidableEq, Repr

/-- A `Parameter` task's own data (`Parameter.__init__`, source lines
164-181): name, required flag, default value. -/
structure Parameter where
  name : String
  required : Bool
  default : Value
deriving DecidableEq, Repr

/-- `Parameter.__init__` (source lines 164-181): a non-`None` default forces
`required` to `False`; otherwise the supplied flag is kept. (The call to the
base constructor with `name=name, slug=name` is the identity-setter path
modelled by `Parameter.constructIdentity` below.) -/
def Parameter.init (name : String) (default : Value) (required : Bool) : Parameter :=
  let required := if default ≠ Value.vnone then false else required
  { name := name, required := required, default := default }

/-- `Parameter.run` (source lines 208-214): look the parameter's name up in
the ambient `_parameters` mapping; raise `FAIL` with a descriptive message
when required and absent; otherwise the found value, or the default. -/
def Parameter.run (p : Parameter) (ctx : Context) : Except Signal Value :=
  let params := ctx.parameters
  if p.required && (lookupKw params p.name).isNone then
    .error (.fail ("Parameter \"" ++ p.name ++ "\" was required but not provided."))
  else
    .ok ((lookupKw params p.name).getD p.default)

/-- The identity state of a `Parameter`: whether the write-once backing field
`_name` has been assigned (`hasattr(self, "_name")`). -/
structure ParamIdentity where
  backingName : Option String
deriving DecidableEq, Repr

/-- The `name` property getter (source lines 183-185): reading `self._name`
raises `AttributeError` while the field is unset. -/
def nameGet (s : ParamIdentity) : Except String String :=
  match s.backingName with
  | some n => .ok n
  | none => .error "AttributeError: _name"

/-- The `name` property setter (source lines 187-191): the first assignment
stores the value; every later assignment raises `AttributeError`. -/
def nameSet (s : ParamIdentity) (v : String) : Except String ParamIdentity :=
  match s.backingName with
  | some _ => .error "Parameter name can not be changed"
  | none => .ok { backingName := some v }

/-- The `slug` property getter (source lines 193-199): a Parameter's slug is
always its name. -/
def slugGet (s : ParamIdentity) : Except String String :=
  nameGet s

/-- The `slug` property setter (source lines 201-206): nothing is stored; a
write agreeing with the current name is silently accepted, a disagreeing
write raises `AttributeError`. -/
def slugSet (s : ParamIdentity) (v : String) : Except String ParamIdentity :=
  match nameGet s with
  | .ok n => if v ≠ n then .error "Parameter slug must be the same as its name." else .ok s
  | .error e => .error e

/-- The identity writes the generic construction path performs for a
Parameter (`super().__init__(name=name, slug=name)` reaching source lines
51-52): `self.name = name` then `self.slug = slug`, starting from the unset
state. -/
def Parameter.constructIdentity (name : String) : Except String ParamIdentity :=
  match nameSet { backingName := none } name with
  | .ok s =>
    match slugSet s name with
    | .ok s' => .ok s'
    | .error e => .error e
  | .error e => .error e

/-- The declared parameter list of `GetItem.run`: modelled from the spec, the
operator's work function takes the upstream output as its single required
parameter `task_result`. -/
def getItemSignature : Signature :=
  { params := [{ name := "task_result", default := none }], varKw := none }

/-- Modelled from the spec: `GetItem` (prefect.tasks.core.operators, not
under src/) is a Task variant representing "extract element `index` from the
upstream output". Constructing it runs the base `Task.__init__` with the
given name, so it snapshots the ambient group/tags; the stored `index`
attribute only matters to the excluded execution engine and is reflected
here through the name the caller derives from it. -/
def GetItem.init (name : String) (ctx : Context) : Task :=
  Task.init { name := some name, sig := getItemSignature } "GetItem" ctx

/-- `TaskResult.__getitem__` (source lines 234-238): construct a `GetItem`
task named `"{task.name}[{index}]"` (a construction that also performs the
base constructor's ambient-flow registration) and invoke it through the
normal call path with this result bound to its `task_result` keyword. -/
def TaskResult.getitem (r : TaskResult) (ctx : Context) (index : Int) :
    Except BindErr TaskResult :=
  let index_task := GetItem.init (r.task.name ++ "[" ++ toString index ++ "]") ctx
  let ctx := Task.initRegister index_task ctx
  Task.call index_task ctx [] [] [("task_result", DepVal.res r.task)]

/-- One step of an authoring script: construct a task, or mutate the ambient
tag / group configuration (the mutations the frame-effect claim is about). -/
inductive AuthorStep where
  | constructTask : TaskConfig → String → AuthorStep
  | setContextTags : List String → AuthorStep
  | setContextGroup : Option String → AuthorStep
deriving Repr

/-- The authoring state: the ambient context together with every task
constructed so far, in order. -/
structure AuthorState where
  ctx : Context
  constructed : List Task
deriving Repr

/-- Small-step semantics of an authoring script: task construction snapshots
the current context (and performs the ambient-flow registration side
effect); the mutation steps rewrite the ambient context only. -/
def stepAuthor (s : AuthorState) : AuthorStep → AuthorState
  | .constructTask cfg typeName =>
    let t := Task.init cfg typeName s.ctx
    { ctx := Task.initRegister t s.ctx, constructed := s.constructed ++ [t] }
  | .setContextTags newTags => { s with ctx := { s.ctx with tags := newTags } }
  | .setContextGroup g => { s with ctx := { s.ctx with group := g } }

/-! Concrete fixtures used by witnesses and counterexamples. -/

/-- A context with nothing ambient. -/
def ctxEmpty : Context := { flow := none, group := none, tags := [], parameters := [] }

/-- A task whose work function declares `(a, b=1)`, constructed with no
ambient context. -/
def taskA : Task := Task.init { name := some "add", sig := sigAB } "Task" ctxEmpty

/-- A task whose work function declares `(a, **rest)`. -/
def taskAKw : Task := Task.init { name := some "collect", sig := sigAKw } "Task" ctxEmpty

/-- A non-empty flow already holding `taskA`. -/
def flowT : Flow := { tasks := [taskA], edges := [] }

/-- A context whose ambient flow is `flowT`. -/
def ctxFlowT : Context := { flow := some flowT, group := none, tags := [], parameters := [] }

/-- The first invocation of C7's witness scenario `task(1)`. -/
def r1C7 : TaskResult :=
  Flow.set_dependencies Flow.empty taskA [] []
    [(PyKey.pystr "a", Bindings.plain (DepVal.lit (Value.int 1)))] true

/-- The second invocation of C7's witness scenario `task(2)`, against the
flow mutated by the first. -/
def r2C7 : TaskResult :=
  Flow.set_dependencies r1C7.flow taskA [] []
    [(PyKey.pystr "a", Bindings.plain (DepVal.lit (Value.int 2)))] true

/-- A second distinct flow, used by C10's witness. -/
def flowU : Flow := { tasks := [taskAKw], edges := [] }

/-! Characterisation of when call binding fails (C2). -/

/-- The parameter names a signature declares. -/
def Signature.paramNames (sig : Signature) : List String :=
  sig.params.map Param.name

/-- An unknown keyword name was passed and there is no overflow slot to
absorb it. -/
def hasUnknownKeyword (sig : Signature) (kwNames : List String) : Prop :=
  sig.varKw = none ∧ ∃ k ∈ kwNames, k ∉ sig.paramNames

/-- More positional values were passed than the parameter list can take. -/
def hasTooManyPositional (sig : Signature) (nargs : Nat) : Prop :=
  sig.params.length < nargs

/-- Some required parameter receives no value: it lies beyond the positional
values and its name is not among the keyword names. -/
def hasMissingRequired (sig : Signature) (nargs : Nat) (kwNames : List String) : Prop :=
  ∃ p ∈ sig.params.drop nargs, p.default = none ∧ p.name ∉ kwNames

/-- Some parameter receives a value both positionally and by keyword. -/
def hasDuplicateValue (sig : Signature) (nargs : Nat) (kwNames : List String) : Prop :=
  ∃ p ∈ sig.params.take nargs, p.name ∈ kwNames

instance hasUnknownKeyword.instDec (sig : Signature) (kwNames : List String) :
    Decidable (hasUnknownKeyword sig kwNames) := by
  unfold hasUnknownKeyword; infer_instance

instance hasTooManyPositional.instDec (sig : Signature) (nargs : Nat) :
    Decidable (hasTooManyPositional sig nargs) := by
  unfold hasTooManyPositional; infer_instance

instance hasMissingRequired.instDec (sig : Signature) (nargs : Nat) (kwNames : List String) :
    Decidable (hasMissingRequired sig nargs kwNames) := by
  unfold hasMissingRequired; infer_instance

instance hasDuplicateValue.instDec (sig : Signature) (nargs : Nat) (kwNames : List String) :
    Decidable (hasDuplicateValue sig nargs kwNames) := by
  unfold hasDuplicateValue; infer_instance

/-- Whether a fallible computation succeeded. -/
def isOkE {ε α : Type} : Except ε α → Bool
  | .ok _ => true
  | .error _ => false

/-! Theorems. -/

/-- C1: the spec (and the source's own comment, lines 114-115) promise that
the mapping captured by a variadic-keyword slot is flattened into the
top-level bound mapping, leaving no residual key for the slot itself. The
code pops the `inspect.Parameter` object instead of its name from the
string-keyed `callargs` dict, so the pop never finds anything and the
expansion is a no-op: for a work function `(a, **rest)` invoked with
`(a=1, x=2, y=3)`, the call path leaves the bound mapping as
`{a:1, rest:{x:2, y:3}}` — the residual `rest` key remains and `x`, `y`
never become top-level keys. -/
theorem varkw_capture_not_flattened :
    Task.callBind taskAKw []
        [("a", DepVal.lit (Value.int 1)), ("x", DepVal.lit (Value.int 2)),
          ("y", DepVal.lit (Value.int 3))]
      = .ok [(.pystr "a", .plain (.lit (.int 1))),
             (.pystr "rest", .kwCapture [("x", .lit (.int 2)), ("y", .lit (.int 3))])] := rfl

/-- C3: a ParameterTask's name is write-once (first assignment succeeds,
later ones raise), its slug is a view that always equals the name, a slug
write agreeing with the name is a silent no-op while a disagreeing one
raises, and the generic construction path (name write followed by the
agreeing slug write) succeeds. -/
theorem parameter_identity (s : ParamIdentity) (n v : String) :
    nameSet { backingName := none } v = .ok { backingName := some v }
    ∧ (s.backingName = some n → ∀ w, nameSet s w = .error "Parameter name can not be changed")
    ∧ slugGet s = nameGet s
    ∧ (s.backingName = some n → slugSet s n = .ok s)
    ∧ (s.backingName = some n → v ≠ n →
        slugSet s v = .error "Parameter slug must be the same as its name.")
    ∧ Parameter.constructIdentity n = .ok { backingName := some n } := by
  refine ⟨rfl, ?_, rfl, ?_, ?_, ?_⟩
  · intro h w; simp [nameSet, h]
  · intro h; simp [slugSet, nameGet, h]
  · intro h hne; simp [slugSet, nameGet, h, hne]
  · simp [Parameter.constructIdentity, nameSet, slugSet, nameGet]

/-- Witness for C3 at a parameter whose name is already set to `"x"`. -/
theorem parameter_identity_witness :
    nameSet { backingName := some "x" } "y" = .error "Parameter name can not be changed"
    ∧ slugSet { backingName := some "x" } "x" = .ok { backingName := some "x" }
    ∧ slugSet { backingName := some "x" } "y"
        = .error "Parameter slug must be the same as its name." := by
  have h := parameter_identity { backingName := some "x" } "x" "y"
  exact ⟨h.2.1 rfl "y", h.2.2.2.1 rfl, h.2.2.2.2.1 rfl (by decide)⟩

/-- C4: evaluating a ParameterTask looks its name up in the ambient
parameter-values mapping; when required and absent it produces the
distinguished FAIL outcome with a message naming the parameter; otherwise it
returns the found value, or the configured default when absent and not
required. -/
theorem parameter_run_contract (p : Parameter) (ctx : Context) :
    (p.required = true → lookupKw ctx.parameters p.name = none →
      Parameter.run p ctx =
        .error (.fail ("Parameter \"" ++ p.name ++ "\" was required but not provided.")))
    ∧ (∀ v, lookupKw ctx.parameters p.name = some v → Parameter.run p ctx = .ok v)
    ∧ (p.required = false → lookupKw ctx.parameters p.name = none →
      Parameter.run p ctx = .ok p.default) := by
  refine ⟨?_, ?_, ?_⟩
  · intro hr hl; simp [Parameter.run, hr, hl]
  · intro v hl; simp [Parameter.run, hl]
  · intro hr hl; simp [Parameter.run, hr, hl]

/-- Witness for C4: a required parameter with no ambient value fails with
the descriptive message; an ambient value is returned; a non-required
parameter falls back to its default. -/
theorem parameter_run_contract_witness :
    Parameter.run (Parameter.init "n" Value.vnone true) ctxEmpty
        = .error (.fail "Parameter \"n\" was required but not provided.")
    ∧ Parameter.run (Parameter.init "n" Value.vnone true)
        { ctxEmpty with parameters := [("n", Value.int 7)] } = .ok (Value.int 7)
    ∧ Parameter.run (Parameter.init "n" (Value.int 5) true) ctxEmpty = .ok (Value.int 5) :=
  ⟨(parameter_run_contract (Parameter.init "n" Value.vnone true) ctxEmpty).1 rfl rfl,
   (parameter_run_contract (Parameter.init "n" Value.vnone true)
      { ctxEmpty with parameters := [("n", Value.int 7)] }).2.1 (Value.int 7) rfl,
   (parameter_run_contract (Parameter.init "n" (Value.int 5) true) ctxEmpty).2.2 rfl rfl⟩

/-- C5: a non-`None` default forces the required flag to false regardless of
the supplied flag (in particular for `Parameter(name="n", default=5)`), and
a `None` default keeps the supplied flag. -/
theorem parameter_required_forced (n : String) (d : Value) (r : Bool) :
    (d ≠ Value.vnone → (Parameter.init n d r).required = false)
    ∧ (d = Value.vnone → (Parameter.init n d r).required = r)
    ∧ (Parameter.init "n" (Value.int 5) true).required = false := by
  refine ⟨?_, ?_, rfl⟩
  · intro h; simp [Parameter.init, h]
  · intro h; simp [Parameter.init, h]

/-- Witness for C5 at `default=3, required=true` and at
`default=None, required=true`. -/
theorem parameter_required_forced_witness :
    (Parameter.init "p" (Value.int 3) true).required = false
    ∧ (Parameter.init "p" Value.vnone true).required = true :=
  ⟨(parameter_required_forced "p" (Value.int 3) true).1 (by decide),
   (parameter_required_forced "p" Value.vnone true).2.1 rfl⟩

/-- C6: the owning flow is resolved as the explicit argument when given,
else the ambient current flow, else a freshly constructed empty flow, both
for `set_dependencies` and for the invocation path's ambient lookup; being a
total function of the context, resolution never fails for lack of an
ambient flow. -/
theorem flow_resolution_order (t : Task) (f g : Flow) (ctx : Context)
    (up down : List Task) (kw : List (PyKey × Bindings DepVal)) (v : Bool) :
    Task.set_dependencies t (some f) ctx up down kw v = Flow.set_dependencies f t up down kw v
    ∧ (ctx.flow = some g →
        Task.set_dependencies t none ctx up down kw v = Flow.set_dependencies g t up down kw v)
    ∧ (ctx.flow = none →
        Task.set_dependencies t none ctx up down kw v
          = Flow.set_dependencies Flow.empty t up down kw v)
    ∧ (ctx.flow = some g → callAmbientFlow ctx = g)
    ∧ (ctx.flow = none → callAmbientFlow ctx = Flow.empty) := by
  refine ⟨rfl, ?_, ?_, ?_, ?_⟩ <;> intro h <;>
    simp [Task.set_dependencies, resolveFlowArg, callAmbientFlow, h]

/-- Witness for C6: with `flowT` ambient, the ambient flow is used; with
nothing ambient, a fresh empty flow is used. -/
theorem flow_resolution_order_witness :
    Task.set_dependencies taskA none ctxFlowT [] [] [] true
        = Flow.set_dependencies flowT taskA [] [] [] true
    ∧ callAmbientFlow ctxFlowT = flowT
    ∧ Task.set_dependencies taskA none ctxEmpty [] [] [] true
        = Flow.set_dependencies Flow.empty taskA [] [] [] true :=
  ⟨(flow_resolution_order taskA Flow.empty flowT ctxFlowT [] [] [] true).2.1 rfl,
   (flow_resolution_order taskA Flow.empty flowT ctxFlowT [] [] [] true).2.2.2.1 rfl,
   (flow_resolution_order taskA Flow.empty flowT ctxEmpty [] [] [] true).2.2.1 rfl⟩

/-! Graph-level lemmas about the spec-modelled flow operations. -/

lemma add_task_edges (f : Flow) (t : Task) : (f.add_task t).edges = f.edges := by
  unfold Flow.add_task; split <;> rfl

lemma mem_add_task_self (f : Flow) (t : Task) : t ∈ (f.add_task t).tasks := by
  unfold Flow.add_task; split
  · assumption
  · simp

lemma mem_add_task_mono {f : Flow} {t : Task} (u : Task) (h : t ∈ f.tasks) :
    t ∈ (f.add_task u).tasks := by
  unfold Flow.add_task; split
  · exact h
  · simp [h]

lemma tasks_subset_add_task (f : Flow) (u : Task) : f.tasks ⊆ (f.add_task u).tasks :=
  fun _ h => mem_add_task_mono u h

lemma count_add_task_le (f : Flow) (u t : Task) :
    (f.add_task u).tasks.count t ≤ f.tasks.count t + 1 := by
  unfold Flow.add_task; split
  · exact Nat.le_succ _
  · simp [List.count_append, List.count_singleton']
    split <;> omega

lemma count_add_task_of_mem {f : Flow} {t : Task} (u : Task) (h : t ∈ f.tasks) :
    (f.add_task u).tasks.count t = f.tasks.count t := by
  unfold Flow.add_task; split
  · rfl
  · rename_i hu
    have hne : u ≠ t := fun he => hu (he ▸ h)
    simp [List.count_append, List.count_singleton', hne]

lemma foldl_graph_preserve {β : Type} (t : Task) (g : Flow → β → Flow)
    (hmem : ∀ fl b, t ∈ fl.tasks → t ∈ (g fl b).tasks)
    (hcount : ∀ fl b, t ∈ fl.tasks → (g fl b).tasks.count t = fl.tasks.count t) :
    ∀ (l : List β) (fl : Flow), t ∈ fl.tasks →
      t ∈ (l.foldl g fl).tasks ∧ (l.foldl g fl).tasks.count t = fl.tasks.count t := by
  intro l
  induction l with
  | nil => intro fl h; exact ⟨h, rfl⟩
  | cons b bs ih =>
    intro fl h
    have h1 := hmem fl b h
    obtain ⟨m, c⟩ := ih (g fl b) h1
    exact ⟨m, c.trans (hcount fl b h)⟩

lemma foldl_graph_subset {β : Type} (g : Flow → β → Flow)
    (hs : ∀ fl b, fl.tasks ⊆ (g fl b).tasks) :
    ∀ (l : List β) (fl : Flow), fl.tasks ⊆ (l.foldl g fl).tasks := by
  intro l
  induction l with
  | nil => intro fl; exact fun _ h => h
  | cons b bs ih => intro fl; exact fun x hx => ih (g fl b) (hs fl b hx)

lemma upStep_mem (t : Task) : ∀ (fl : Flow) (u : Task), t ∈ fl.tasks →
    t ∈ ((fl.add_task u).addEdge { upstream := u, downstream := t, key := none }).tasks := by
  intro fl u h; exact mem_add_task_mono u h

lemma set_dependencies_tasks (f : Flow) (t : Task) (up down : List Task)
    (kw : List (PyKey × Bindings DepVal)) (v : Bool) :
    (Flow.set_dependencies f t up down kw v).task = t := rfl

lemma set_dependencies_mem_count (f : Flow) (t : Task) (up down : List Task)
    (kw : List (PyKey × Bindings DepVal)) (v : Bool) :
    t ∈ (Flow.set_dependencies f t up down kw v).flow.tasks
    ∧ (Flow.set_dependencies f t up down kw v).flow.tasks.count t
        = ((f.add_task t).tasks.count t) := by
  unfold Flow.set_dependencies
  have h1 : t ∈ (f.add_task t).tasks := mem_add_task_self f t
  have hup := foldl_graph_preserve t
    (fun acc u => (acc.add_task u).addEdge { upstream := u, downstream := t, key := none })
    (fun fl b hb => mem_add_task_mono b hb)
    (fun fl b hb => by simp [Flow.addEdge, count_add_task_of_mem b hb])
    up (f.add_task t) h1
  have hdown := foldl_graph_preserve t
    (fun acc d => (acc.add_task d).addEdge { upstream := t, downstream := d, key := none })
    (fun fl b hb => mem_add_task_mono b hb)
    (fun fl b hb => by simp [Flow.addEdge, count_add_task_of_mem b hb])
    down _ hup.1
  have hkw := foldl_graph_preserve t
    (fun acc kv =>
      match kv with
      | (PyKey.pystr name, Bindings.plain (DepVal.res u)) =>
        (acc.add_task u).addEdge { upstream := u, downstream := t, key := some name }
      | _ => acc)
    (fun fl b hb => by
      rcases b with ⟨k, bv⟩
      rcases k with k | k | _ <;> try exact hb
      rcases bv with bv | bv
      · rcases bv with bv | bv
        · exact hb
        · exact mem_add_task_mono bv hb
      · exact hb)
    (fun fl b hb => by
      rcases b with ⟨k, bv⟩
      rcases k with k | k | _ <;> try rfl
      rcases bv with bv | bv
      · rcases bv with bv | bv
        · rfl
        · simp [Flow.addEdge, count_add_task_of_mem bv hb]
      · rfl)
    kw _ hdown.1
  refine ⟨?_, ?_⟩
  · show t ∈ (TaskResult.init t (some _)).flow.tasks
    exact mem_add_task_self _ t
  · show (TaskResult.init t (some _)).flow.tasks.count t = _
    unfold TaskResult.init
    simp only [Option.getD_some]
    rw [count_add_task_of_mem t hkw.1, hkw.2, hdown.2, hup.2]

lemma set_dependencies_count_le (f : Flow) (t : Task) (up down : List Task)
    (kw : List (PyKey × Bindings DepVal)) (v : Bool) :
    (Flow.set_dependencies f t up down kw v).flow.tasks.count t ≤ f.tasks.count t + 1 := by
  rw [(set_dependencies_mem_count f t up down kw v).2]
  exact count_add_task_le f t t

lemma set_dependencies_count_of_mem {f : Flow} {t : Task} (h : t ∈ f.tasks)
    (up down : List Task) (kw : List (PyKey × Bindings DepVal)) (v : Bool) :
    (Flow.set_dependencies f t up down kw v).flow.tasks.count t = f.tasks.count t := by
  rw [(set_dependencies_mem_count f t up down kw v).2]
  exact count_add_task_of_mem t h

/-- C7: constructing a TaskResult registers its task in the given flow (via
the idempotent add) before returning, and invoking the same task twice
against the same ambient flow leaves the task registered while its node
count grows by at most one over the whole two-invocation sequence. -/
theorem taskresult_registration_count (task : Task) (f : Flow) (gr : Option String)
    (tg : List String) (pr : List (String × Value)) (args1 args2 : List DepVal)
    (kw1 kw2 : List (String × DepVal)) (r1 r2 : TaskResult)
    (h1 : Task.call task { flow := some f, group := gr, tags := tg, parameters := pr }
        args1 [] kw1 = .ok r1)
    (h2 : Task.call task { flow := some r1.flow, group := gr, tags := tg, parameters := pr }
        args2 [] kw2 = .ok r2) :
    (∀ (t' : Task) (fl : Option Flow),
        (TaskResult.init t' fl).task = t' ∧ t' ∈ (TaskResult.init t' fl).flow.tasks)
    ∧ task ∈ r1.flow.tasks ∧ task ∈ r2.flow.tasks
    ∧ r2.flow.tasks.count task ≤ f.tasks.count task + 1 := by
  rcases hcb1 : Task.callBind task args1 kw1 with e | ca1
  · simp [Task.call, hcb1] at h1
  rcases hcb2 : Task.callBind task args2 kw2 with e | ca2
  · simp [Task.call, hcb2] at h2
  simp only [Task.call, hcb1, Task.set_dependencies, resolveFlowArg, callAmbientFlow,
    Option.getD_some, Except.ok.injEq] at h1
  simp only [Task.call, hcb2, Task.set_dependencies, resolveFlowArg, callAmbientFlow,
    Option.getD_some, Except.ok.injEq] at h2
  subst h1; subst h2
  refine ⟨?_, ?_, ?_, ?_⟩
  · intro t' fl
    exact ⟨rfl, mem_add_task_self _ t'⟩
  · exact (set_dependencies_mem_count f task [] [] ca1 true).1
  · exact (set_dependencies_mem_count _ task [] [] ca2 true).1
  · rw [set_dependencies_count_of_mem (set_dependencies_mem_count f task [] [] ca1 true).1]
    exact set_dependencies_count_le f task [] [] ca1 true

/-- Witness for C7: `taskA(1)` then `taskA(2)` against an initially empty
ambient flow leaves the task registered with node count at most one more
than at the start. -/
theorem taskresult_registration_count_witness :
    taskA ∈ r2C7.flow.tasks
    ∧ r2C7.flow.tasks.count taskA ≤ Flow.empty.tasks.count taskA + 1 := by
  have h := taskresult_registration_count taskA Flow.empty none [] []
    [DepVal.lit (Value.int 1)] [DepVal.lit (Value.int 2)] [] [] r1C7 r2C7 rfl rfl
  exact ⟨h.2.2.1, h.2.2.2⟩

/-- C8: a task's tag set is the union of its explicit tags and the ambient
tags read at construction time, its group is likewise read at construction
time, and mutating the ambient tag collection or group afterwards leaves
every already-constructed task untouched. -/
theorem tags_group_snapshot (s : AuthorState) (cfg : TaskConfig) (typeName : String)
    (newTags : List String) (newGroup : Option String) :
    (∀ x, x ∈ (Task.init cfg typeName s.ctx).tags ↔ (x ∈ cfg.tags ∨ x ∈ s.ctx.tags))
    ∧ (Task.init cfg typeName s.ctx).group = pyOrStr cfg.group (s.ctx.group.getD "")
    ∧ (stepAuthor s (.constructTask cfg typeName)).constructed
        = s.constructed ++ [Task.init cfg typeName s.ctx]
    ∧ (stepAuthor (stepAuthor s (.constructTask cfg typeName)) (.setContextTags newTags)).constructed
        = s.constructed ++ [Task.init cfg typeName s.ctx]
    ∧ (stepAuthor (stepAuthor s (.constructTask cfg typeName)) (.setContextGroup newGroup)).constructed
        = s.constructed ++ [Task.init cfg typeName s.ctx] := by
  refine ⟨?_, rfl, rfl, rfl, rfl⟩
  intro x
  simp [Task.init]

lemma str_append_bracket_ne_empty (s : String) : s ++ "]" ≠ "" := by
  intro h
  have hl := congrArg String.length h
  rw [String.length_append] at hl
  have h1 : String.length "]" = 1 := rfl
  have h0 : String.length "" = 0 := rfl
  omega

lemma getitem_eval (r : TaskResult) (ctx : Context) (i : Int) :
    TaskResult.getitem r ctx i =
      .ok (Flow.set_dependencies
        (callAmbientFlow (Task.initRegister
          (GetItem.init (r.task.name ++ "[" ++ toString i ++ "]") ctx) ctx))
        (GetItem.init (r.task.name ++ "[" ++ toString i ++ "]") ctx) [] []
        [(PyKey.pystr "task_result", Bindings.plain (DepVal.res r.task))] true) := rfl

lemma getItem_name (nm : String) (ctx : Context) (h : nm ≠ "") :
    (GetItem.init nm ctx).name = nm := by
  show pyOrStr (some nm) "GetItem" = nm
  simp [pyOrStr, h]

lemma set_dependencies_kw_edge (f : Flow) (t u : Task) (nm : String) :
    ({ upstream := u, downstream := t, key := some nm } : Edge) ∈
      (Flow.set_dependencies f t [] []
        [(PyKey.pystr nm, Bindings.plain (DepVal.res u))] true).flow.edges := by
  unfold Flow.set_dependencies TaskResult.init
  simp only [Option.getD_some, add_task_edges, List.foldl]
  simp [Flow.addEdge]

lemma set_dependencies_flow_subset (f : Flow) (t : Task) (up down : List Task)
    (kw : List (PyKey × Bindings DepVal)) (v : Bool) :
    f.tasks ⊆ (Flow.set_dependencies f t up down kw v).flow.tasks := by
  unfold Flow.set_dependencies TaskResult.init
  simp only [Option.getD_some]
  intro x hx
  refine mem_add_task_mono t ?_
  refine foldl_graph_subset _ ?_ kw _ ?_
  · intro fl b
    rcases b with ⟨k, bv⟩
    rcases k with k | k | _ <;> try exact fun _ h => h
    rcases bv with bv | bv
    · rcases bv with bv | bv
      · exact fun _ h => h
      · exact fun y hy => mem_add_task_mono bv hy
    · exact fun _ h => h
  refine foldl_graph_subset _ ?_ down _ ?_
  · exact fun fl b y hy => mem_add_task_mono b hy
  refine foldl_graph_subset _ ?_ up _ ?_
  · exact fun fl b y hy => mem_add_task_mono b hy
  exact tasks_subset_add_task f t hx

/-- C9: `result[index]` constructs a derived extract-element task whose name
is `"{parent.name}[{index}]"` — deterministically derived from the parent
task's name and the index — wires it downstream of `result` through the
normal invocation path (an edge from the parent task into the new task's
`task_result` slot), and returns the new TaskResult. -/
theorem getitem_derived_task (r : TaskResult) (ctx : Context) (i : Int) :
    ∃ r' : TaskResult,
      TaskResult.getitem r ctx i = .ok r'
      ∧ r'.task.name = r.task.name ++ "[" ++ toString i ++ "]"
      ∧ { upstream := r.task, downstream := r'.task, key := some "task_result" } ∈ r'.flow.edges := by
  refine ⟨_, getitem_eval r ctx i, ?_, ?_⟩
  · exact getItem_name _ ctx (str_append_bracket_ne_empty _)
  · exact set_dependencies_kw_edge _ _ _ _

/-- C10: `result[index]` resolves the flow for the derived task from the
ambient current-flow context, not from `result.flow`: the outcome is
identical whatever flow the handle carries, and with an ambient flow `g`
present the derived task and its new edge are registered in (an extension
of) `g` — the handle's own flow plays no part. -/
theorem getitem_ambient_flow (t : Task) (f1 f2 g : Flow) (ctx : Context) (i : Int)
    (h : ctx.flow = some g) :
    TaskResult.getitem { task := t, flow := f1 } ctx i
        = TaskResult.getitem { task := t, flow := f2 } ctx i
    ∧ ∃ r' : TaskResult,
        TaskResult.getitem { task := t, flow := f1 } ctx i = .ok r'
        ∧ g.tasks ⊆ r'.flow.tasks
        ∧ { upstream := t, downstream := r'.task, key := some "task_result" } ∈ r'.flow.edges := by
  refine ⟨rfl, ?_⟩
  obtain ⟨cf, cg, ctg, cp⟩ := ctx
  simp only at h
  subst h
  refine ⟨_, getitem_eval { task := t, flow := f1 }
    { flow := some g, group := cg, tags := ctg, parameters := cp } i, ?_, ?_⟩
  · exact fun x hx =>
      set_dependencies_flow_subset _ _ _ _ _ _ (tasks_subset_add_task g _ hx)
  · exact set_dependencies_kw_edge _ _ _ _

/-- Witness for C10: with `flowT` ambient, indexing a handle bound to the
empty flow and one bound to `flowU` produce the same outcome. -/
theorem getitem_ambient_flow_witness :
    TaskResult.getitem { task := taskA, flow := Flow.empty } ctxFlowT 2
      = TaskResult.getitem { task := taskA, flow := flowU } ctxFlowT 2 :=
  (getitem_ambient_flow taskA Flow.empty flowU flowT ctxFlowT 2 rfl).1

lemma lookupKw_eq_none {α : Type} (kwargs : List (String × α)) (k : String) :
    lookupKw kwargs k = none ↔ k ∉ kwargs.map Prod.fst := by
  induction kwargs with
  | nil => simp [lookupKw]
  | cons kv rest ih =>
    obtain ⟨k', v⟩ := kv
    simp only [lookupKw]
    by_cases h : k' = k
    · simp [h]
    · rw [if_neg h, ih]
      constructor
      · intro hni hmem
        rcases List.mem_cons.mp hmem with he | hm
        · exact h he.symm
        · exact hni hm
      · intro hni hm
        exact hni (List.mem_cons_of_mem _ hm)

lemma map_fst_eraseKw {α : Type} (kwargs : List (String × α)) (k : String) :
    (eraseKw kwargs k).map Prod.fst = (kwargs.map Prod.fst).filter (fun s => s ≠ k) := by
  induction kwargs with
  | nil => rfl
  | cons kv rest ih =>
    obtain ⟨k', v⟩ := kv
    simp only [eraseKw, ne_eq, decide_not] at ih ⊢
    by_cases h : k' = k
    · simp [List.filter_cons, h, ih]
    · simp [List.filter_cons, h, ih]

lemma mem_map_fst_eraseKw {α : Type} (kwargs : List (String × α)) {k k' : String}
    (h : k' ≠ k) : k' ∈ (eraseKw kwargs k).map Prod.fst ↔ k' ∈ kwargs.map Prod.fst := by
  rw [map_fst_eraseKw]
  simp [List.mem_filter, h]

lemma bindPos_isOk {α : Type} :
    ∀ (ps : List Param) (args : List α) (kwNames : List String),
      isOkE (bindPos ps args kwNames) = true ↔
        (args.length ≤ ps.length ∧ ∀ p ∈ ps.take args.length, p.name ∉ kwNames) := by
  intro ps args
  induction args generalizing ps with
  | nil => intro kwNames; simp [bindPos, isOkE]
  | cons a as ih =>
    intro kwNames
    cases ps with
    | nil => simp [bindPos, isOkE]
    | cons p ps' =>
      by_cases h : p.name ∈ kwNames
      · simp only [bindPos, if_pos h, isOkE, Bool.false_eq_true, false_iff]
        intro hc
        exact hc.2 p (by simp [List.take_succ_cons]) h
      · have hpush : isOkE (bindPos (p :: ps') (a :: as) kwNames)
            = isOkE (bindPos ps' as kwNames) := by
          simp only [bindPos, if_neg h]
          rcases bindPos ps' as kwNames with e | ⟨b, r⟩ <;> rfl
        rw [hpush, ih ps' kwNames]
        simp [List.take_succ_cons, List.forall_mem_cons, h, Nat.succ_le_succ_iff]

lemma bindPos_drop {α : Type} :
    ∀ (ps : List Param) (args : List α) (kwNames : List String)
      (b : List (String × α)) (rem : List Param),
      bindPos ps args kwNames = .ok (b, rem) → rem = ps.drop args.length := by
  intro ps args
  induction args generalizing ps with
  | nil =>
    intro kwNames b rem h
    simp only [bindPos, Except.ok.injEq, Prod.mk.injEq] at h
    exact h.2.symm
  | cons a as ih =>
    intro kwNames b rem h
    cases ps with
    | nil => simp [bindPos] at h
    | cons p ps' =>
      by_cases hm : p.name ∈ kwNames
      · simp [bindPos, hm] at h
      · simp only [bindPos, if_neg hm] at h
        rcases hrec : bindPos ps' as kwNames with e | ⟨b', rem'⟩ <;> rw [hrec] at h
        · cases h
        · simp only [Except.ok.injEq, Prod.mk.injEq] at h
          rw [List.length_cons, List.drop_succ_cons, ← h.2]
          exact ih ps' kwNames b' rem' hrec

lemma bindKw_isOk {α : Type} :
    ∀ (ps : List Param) (kwargs : List (String × α)), (ps.map Param.name).Nodup →
      (isOkE (bindKw ps kwargs) = true ↔
        ∀ p ∈ ps, p.default.isSome = true ∨ p.name ∈ kwargs.map Prod.fst) := by
  intro ps
  induction ps with
  | nil => intro kwargs hnd; simp [bindKw, isOkE]
  | cons p ps' ih =>
    intro kwargs hnd
    rw [List.map_cons, List.nodup_cons] at hnd
    obtain ⟨hpn, hnd'⟩ := hnd
    rcases hl : lookupKw kwargs p.name with _ | v
    · by_cases hd : p.default.isSome
      · have hpush : isOkE (bindKw (p :: ps') kwargs) = isOkE (bindKw ps' kwargs) := by
          simp only [bindKw, hl, if_pos hd]
        rw [hpush, ih kwargs hnd']
        simp [List.forall_mem_cons, hd]
      · have hfail : isOkE (bindKw (p :: ps') kwargs) = false := by
          simp [bindKw, hl, hd, isOkE]
        rw [hfail]
        simp only [Bool.false_eq_true, false_iff]
        intro hall
        rcases hall p (List.mem_cons_self p ps') with hc | hc
        · exact hd hc
        · exact (lookupKw_eq_none kwargs p.name).mp hl hc
    · have hmem : p.name ∈ kwargs.map Prod.fst := by
        by_contra hn
        have := (lookupKw_eq_none kwargs p.name).mpr hn
        rw [hl] at this
        cases this
      have hpush : isOkE (bindKw (p :: ps') kwargs)
          = isOkE (bindKw ps' (eraseKw kwargs p.name)) := by
        simp only [bindKw, hl]
        rcases bindKw ps' (eraseKw kwargs p.name) with e | ⟨b, r⟩ <;> rfl
      rw [hpush, ih _ hnd']
      constructor
      · intro hall q hq
        rcases List.mem_cons.mp hq with he | hq'
        · exact he ▸ Or.inr hmem
        · rcases hall q hq' with hc | hc
          · exact Or.inl hc
          · refine Or.inr ?_
            have hne : q.name ≠ p.name := by
              intro he
              exact hpn (he ▸ List.mem_map_of_mem Param.name hq')
            exact (mem_map_fst_eraseKw kwargs hne).mp hc
      · intro hall q hq
        rcases hall q (List.mem_cons_of_mem p hq) with hc | hc
        · exact Or.inl hc
        · refine Or.inr ?_
          have hne : q.name ≠ p.name := by
            intro he
            exact hpn (he ▸ List.mem_map_of_mem Param.name hq)
          exact (mem_map_fst_eraseKw kwargs hne).mpr hc

lemma mem_eraseKw_iff {α : Type} (kwargs : List (String × α)) (k : String)
    (kv : String × α) : kv ∈ eraseKw kwargs k ↔ (kv ∈ kwargs ∧ kv.1 ≠ k) := by
  simp [eraseKw, List.mem_filter]

lemma bindKw_leftover {α : Type} :
    ∀ (ps : List Param) (kwargs : List (String × α)) (b rem : List (String × α)),
      bindKw ps kwargs = .ok (b, rem) →
        ∀ kv, kv ∈ rem ↔ (kv ∈ kwargs ∧ kv.1 ∉ ps.map Param.name) := by
  intro ps
  induction ps with
  | nil =>
    intro kwargs b rem h kv
    simp only [bindKw, Except.ok.injEq, Prod.mk.injEq] at h
    rw [← h.2]
    simp
  | cons p ps' ih =>
    intro kwargs b rem h kv
    rcases hl : lookupKw kwargs p.name with _ | v
    · by_cases hd : p.default.isSome
      · rw [show bindKw (p :: ps') kwargs = bindKw ps' kwargs from by
          simp only [bindKw, hl, if_pos hd]] at h
        rw [ih kwargs b rem h kv]
        have hknone : p.name ∉ kwargs.map Prod.fst := (lookupKw_eq_none kwargs p.name).mp hl
        constructor
        · intro ⟨hin, hout⟩
          refine ⟨hin, ?_⟩
          rw [List.map_cons, List.mem_cons]
          rintro (he | hm)
          · exact hknone (he ▸ List.mem_map_of_mem Prod.fst hin)
          · exact hout hm
        · intro ⟨hin, hout⟩
          refine ⟨hin, fun hm => hout ?_⟩
          rw [List.map_cons, List.mem_cons]
          exact Or.inr hm
      · rw [show bindKw (p :: ps') kwargs
            = .error (BindErr.missingRequired p.name) from by
          simp only [bindKw, hl, if_neg hd]] at h
        cases h
    · simp only [bindKw, hl] at h
      rcases hrec : bindKw ps' (eraseKw kwargs p.name) with e | ⟨b', rem'⟩ <;> rw [hrec] at h
      · cases h
      · simp only [Except.ok.injEq, Prod.mk.injEq] at h
        rw [← h.2, ih _ b' rem' hrec kv, mem_eraseKw_iff]
        rw [List.map_cons, List.mem_cons]
        constructor
        · intro ⟨⟨hin, hne⟩, hout⟩
          exact ⟨hin, fun hor => hor.elim hne hout⟩
        · intro ⟨hin, hout⟩
          exact ⟨⟨hin, fun he => hout (Or.inl he)⟩, fun hm => hout (Or.inr hm)⟩

/-- C2 (amended): binding proceeds by the standard call-binding rules and the
spec's three examples hold; an invocation fails with a binding error if and
only if an unknown keyword name is passed, too many positional values are
passed, a required parameter receives no value, or — the case the original
claim omits — a parameter receives a value both positionally and by keyword
(stated under the Python-guaranteed assumption that declared parameter names
are distinct). -/
theorem binding_error_conditions {α : Type} (sig : Signature) (args : List α)
    (kwargs : List (String × α)) (hp : sig.paramNames.Nodup) :
    (isOkE (Signature.bind sig args kwargs) = false ↔
      (hasUnknownKeyword sig (kwargs.map Prod.fst)
        ∨ hasTooManyPositional sig args.length
        ∨ hasMissingRequired sig args.length (kwargs.map Prod.fst)
        ∨ hasDuplicateValue sig args.length (kwargs.map Prod.fst)))
    ∧ Signature.bind sigAB [Value.int 5] [] = .ok [("a", .plain (.int 5))]
    ∧ Signature.bind sigAB [Value.int 5] [("b", Value.int 10)]
        = .ok [("a", .plain (.int 5)), ("b", .plain (.int 10))]
    ∧ isOkE (Signature.bind sigAB ([] : List Value) [("c", Value.int 5)]) = false := by
  refine ⟨?_, rfl, rfl, rfl⟩
  rcases hpos : bindPos sig.params args (kwargs.map Prod.fst) with e | ⟨posBound, remParams⟩
  · have hb := bindPos_isOk (α := α) sig.params args (kwargs.map Prod.fst)
    rw [hpos] at hb
    simp only [isOkE, Bool.false_eq_true, false_iff] at hb
    refine iff_of_true (by simp [Signature.bind, hpos, isOkE]) ?_
    rcases not_and_or.mp hb with hA | hB
    · exact Or.inr (Or.inl (Nat.not_le.mp hA))
    · push_neg at hB
      exact Or.inr (Or.inr (Or.inr hB))
  · have hb := bindPos_isOk (α := α) sig.params args (kwargs.map Prod.fst)
    rw [hpos] at hb
    simp only [isOkE, true_iff] at hb
    obtain ⟨hle, hclean⟩ := hb
    have hrem : remParams = sig.params.drop args.length :=
      bindPos_drop _ _ _ _ _ hpos
    subst hrem
    have hndrop : ((sig.params.drop args.length).map Param.name).Nodup :=
      List.Nodup.sublist ((List.drop_sublist _ _).map Param.name) hp
    rcases hkw : bindKw (sig.params.drop args.length) kwargs with e | ⟨kwBound, leftover⟩
    · have hk := bindKw_isOk (sig.params.drop args.length) kwargs hndrop
      rw [hkw] at hk
      simp only [isOkE, Bool.false_eq_true, false_iff] at hk
      push_neg at hk
      obtain ⟨p, hpmem, hnd, hnm⟩ := hk
      refine iff_of_true (by simp [Signature.bind, hpos, hkw, isOkE]) ?_
      refine Or.inr (Or.inr (Or.inl ?_))
      exact ⟨p, hpmem, Option.not_isSome_iff_eq_none.mp hnd, hnm⟩
    · have hk := bindKw_isOk (sig.params.drop args.length) kwargs hndrop
      rw [hkw] at hk
      simp only [isOkE, true_iff] at hk
      have hleft := bindKw_leftover (sig.params.drop args.length) kwargs kwBound leftover hkw
      have hnotTM : ¬ hasTooManyPositional sig args.length := Nat.not_lt.mpr hle
      have hnotDup : ¬ hasDuplicateValue sig args.length (kwargs.map Prod.fst) := by
        rintro ⟨p, hpt, hpk⟩
        exact hclean p hpt hpk
      have hnotMiss : ¬ hasMissingRequired sig args.length (kwargs.map Prod.fst) := by
        rintro ⟨p, hpd, hdef, hnm⟩
        rcases hk p hpd with hc | hc
        · rw [hdef] at hc; cases hc
        · exact hnm hc
      rcases leftover with _ | ⟨⟨k, v⟩, rest⟩
      · refine iff_of_false (by simp [Signature.bind, hpos, hkw, isOkE]) ?_
        rintro (hunk | htm | hms | hdp)
        · obtain ⟨hv, q, hq, hqn⟩ := hunk
          obtain ⟨kv, hkv, rfl⟩ := List.mem_map.mp hq
          have hin : kv.1 ∈ (sig.params.drop args.length).map Param.name := by
            by_contra hno
            exact absurd ((hleft kv).mpr ⟨hkv, hno⟩) (List.not_mem_nil kv)
          exact hqn (((List.drop_sublist _ _).map Param.name).subset hin)
        · exact hnotTM htm
        · exact hnotMiss hms
        · exact hnotDup hdp
      · rcases hvk : sig.varKw with _ | kwName
        · refine iff_of_true (by simp [Signature.bind, hpos, hkw, hvk, isOkE]) ?_
          have hkvin := (hleft (k, v)).mp (List.mem_cons_self _ _)
          obtain ⟨hin, hnotrem⟩ := hkvin
          refine Or.inl ⟨hvk, k, List.mem_map_of_mem Prod.fst hin, ?_⟩
          intro hkp
          rw [Signature.paramNames, ← List.take_append_drop args.length sig.params,
            List.map_append, List.mem_append] at hkp
          rcases hkp with hkp | hkp
          · obtain ⟨q, hq, hqe⟩ := List.mem_map.mp hkp
            exact hclean q hq (hqe ▸ List.mem_map_of_mem Prod.fst hin)
          · exact hnotrem hkp
        · refine iff_of_false (by simp [Signature.bind, hpos, hkw, hvk, isOkE]) ?_
          rintro (hunk | htm | hms | hdp)
          · have h1 : sig.varKw = none := hunk.1
            rw [hvk] at h1
            cases h1
          · exact hnotTM htm
          · exact hnotMiss hms
          · exact hnotDup hdp

/-- C2 counterexample: for a work function `(a, b=1)`, invoking with the
positional value `5` together with the keyword `a=7` fails ("multiple values
for argument a"), although no unknown keyword is passed, no excess
positional value is passed, and no required parameter lacks a value — so the
claim's "if and only if" over those three causes alone is false. -/
theorem binding_iff_counterexample :
    isOkE (Signature.bind sigAB [Value.int 5] [("a", Value.int 7)]) = false
    ∧ ¬ hasUnknownKeyword sigAB ["a"]
    ∧ ¬ hasTooManyPositional sigAB 1
    ∧ ¬ hasMissingRequired sigAB 1 ["a"] := by
  refine ⟨rfl, ?_, ?_, ?_⟩ <;> decide

/-- Witness for C2 discharging the distinct-parameter-names hypothesis at
the spec's `(a, b=1)` signature: the error characterisation applied at the
failing example `(c=5)` recovers the failure from its missing-required
cause. -/
theorem binding_error_conditions_witness :
    isOkE (Signature.bind sigAB ([] : List Value) [("c", Value.int 5)]) = false :=
  (binding_error_conditions sigAB ([] : List Value) [("c", Value.int 5)]
    (by decide)).1.mpr (Or.inr (Or.inr (Or.inl (by decide))))

end Prefect
